import Mathlib

/-!
Shallow embedding of the three-phase circuit calculator
(`circuito_trifasico.py`, `calc_corrente.py`, `calc_corrente_linha_carga.py`,
`calc_potencia.py`, `calc_circuito_deseq_D.py`).

Python `complex` arithmetic is embedded as exact arithmetic on `ℂ`.  A Python
division of `complex` values raises `ZeroDivisionError` exactly when the
denominator is zero, so every method that divides is embedded as an
`Option`-valued function, `none` standing for an unhandled exception escaping
the call.  numpy float64 division (used only for the power factor) does not
raise; it yields NaN or ±Inf, embedded by the tagged type `FloatVal`.
-/

noncomputable section

/-- Record of `Circuito.__init__` (circuito_trifasico.py): wire count, source
voltages, line impedances, load impedances and the neutral impedance. -/
structure Circuito where
  fios : ℤ
  va : ℂ
  vb : ℂ
  vc : ℂ
  za_linha : ℂ
  zb_linha : ℂ
  zc_linha : ℂ
  za_carga : ℂ
  zb_carga : ℂ
  zc_carga : ℂ
  zn : ℂ

/-- `Circuito.calcula_I_n` (circuito_trifasico.py lines 130-144).  Each of the
seven Python divisions raises exactly when its denominator vanishes; the three
`zn / Zx_tot` denominators repeat the numerator ones, so the failure set is the
disjunction below.  On success the value is the literal formula of the source. -/
def calcula_I_n (c : Circuito) : Option ℂ :=
  if (c.za_carga + c.za_linha = 0) ∨ (c.zb_carga + c.zb_linha = 0) ∨
      (c.zc_carga + c.zc_linha = 0) ∨
      (1 + c.zn / (c.za_carga + c.za_linha) + c.zn / (c.zb_carga + c.zb_linha) +
        c.zn / (c.zc_carga + c.zc_linha) = 0) then
    none
  else
    some ((c.va / (c.za_carga + c.za_linha) + c.vb / (c.zb_carga + c.zb_linha) +
        c.vc / (c.zc_carga + c.zc_linha)) /
      (1 + c.zn / (c.za_carga + c.za_linha) + c.zn / (c.zb_carga + c.zb_linha) +
        c.zn / (c.zc_carga + c.zc_linha)))

/-- `Circuito.calcula_V_nl_n` (circuito_trifasico.py lines 146-158), embedded
like `calcula_I_n`: the divisions by the three phase totals and by the outer
admittance sum raise exactly when the corresponding denominator is zero. -/
def calcula_V_nl_n (c : Circuito) : Option ℂ :=
  if (c.za_carga + c.za_linha = 0) ∨ (c.zb_carga + c.zb_linha = 0) ∨
      (c.zc_carga + c.zc_linha = 0) ∨
      (1 / (c.za_carga + c.za_linha) + 1 / (c.zb_carga + c.zb_linha) +
        1 / (c.zc_carga + c.zc_linha) = 0) then
    none
  else
    some ((c.va / (c.za_carga + c.za_linha) + c.vb / (c.zb_carga + c.zb_linha) +
        c.vc / (c.zc_carga + c.zc_linha)) /
      (1 / (c.za_carga + c.za_linha) + 1 / (c.zb_carga + c.zb_linha) +
        1 / (c.zc_carga + c.zc_linha)))

/-- Outcome of a call to `correnteFaseA/B/C` (calc_corrente.py): the call can
escape with an unhandled Python exception (`exn`), return the descriptive
string of the zero-total-impedance branch (`strMsg`), or return a complex
current (`val`). -/
inductive CurrentResult where
  | exn : CurrentResult
  | strMsg : String → CurrentResult
  | val : ℂ → CurrentResult
deriving DecidableEq

/-- `correnteFaseA` (calc_corrente.py lines 65-76).  The source computes the
phase total, then calls `calcula_I_n()` and `calcula_V_nl_n()` unconditionally,
and only afterwards tests the total against zero; the match order mirrors the
evaluation order of the source. -/
def correnteFaseA (c : Circuito) : CurrentResult :=
  match calcula_I_n c with
  | none => .exn
  | some I_n =>
    match calcula_V_nl_n c with
    | none => .exn
    | some V_nl_n =>
      if c.za_linha + c.za_carga = 0 then
        .strMsg "Impedância total na fase A é nula"
      else if c.fios = 3 then
        .val (c.va / (c.za_linha + c.za_carga) - V_nl_n / (c.za_linha + c.za_carga))
      else
        .val (c.va / (c.za_linha + c.za_carga) - I_n * c.zn / (c.za_linha + c.za_carga))

/-- `correnteFaseB` (calc_corrente.py lines 79-90), same structure as phase A. -/
def correnteFaseB (c : Circuito) : CurrentResult :=
  match calcula_I_n c with
  | none => .exn
  | some I_n =>
    match calcula_V_nl_n c with
    | none => .exn
    | some V_nl_n =>
      if c.zb_linha + c.zb_carga = 0 then
        .strMsg "Impedância total na fase B é nula"
      else if c.fios = 3 then
        .val (c.vb / (c.zb_linha + c.zb_carga) - V_nl_n / (c.zb_linha + c.zb_carga))
      else
        .val (c.vb / (c.zb_linha + c.zb_carga) - I_n * c.zn / (c.zb_linha + c.zb_carga))

/-- `correnteFaseC` (calc_corrente.py lines 93-104), same structure as phase A. -/
def correnteFaseC (c : Circuito) : CurrentResult :=
  match calcula_I_n c with
  | none => .exn
  | some I_n =>
    match calcula_V_nl_n c with
    | none => .exn
    | some V_nl_n =>
      if c.zc_linha + c.zc_carga = 0 then
        .strMsg "Impedância total na fase C é nula"
      else if c.fios = 3 then
        .val (c.vc / (c.zc_linha + c.zc_carga) - V_nl_n / (c.zc_linha + c.zc_carga))
      else
        .val (c.vc / (c.zc_linha + c.zc_carga) - I_n * c.zn / (c.zc_linha + c.zc_carga))

/-- Subtraction of two phase-current call outcomes, as performed by the line
current functions of calc_corrente_linha_carga.py.  If either operand is not a
complex value the Python subtraction raises (an exception already escaping the
first call, or a `TypeError` on a string operand); both escape as `exn`. -/
def subResult : CurrentResult → CurrentResult → CurrentResult
  | .val x, .val y => .val (x - y)
  | _, _ => .exn

/-- `correnteLinhaA` (calc_corrente_linha_carga.py lines 63-64):
`correnteFaseAB(circuito) - correnteFaseCA(circuito)`, where `correnteFaseAB`
is the import alias of `correnteFaseA` and `correnteFaseCA` of `correnteFaseC`. -/
def correnteLinhaA (c : Circuito) : CurrentResult :=
  subResult (correnteFaseA c) (correnteFaseC c)

/-- `correnteLinhaB` (calc_corrente_linha_carga.py lines 67-68). -/
def correnteLinhaB (c : Circuito) : CurrentResult :=
  subResult (correnteFaseB c) (correnteFaseA c)

/-- `correnteLinhaC` (calc_corrente_linha_carga.py lines 71-72). -/
def correnteLinhaC (c : Circuito) : CurrentResult :=
  subResult (correnteFaseC c) (correnteFaseB c)

/-- `Circuito.converteCargaYD` (circuito_trifasico.py lines 161-183): in-place
star-to-delta conversion of the load fields, embedded as a function returning
the updated circuit; the three divisions by `zc_carga`, `za_carga`, `zb_carga`
raise exactly when the corresponding load is zero. -/
def converteCargaYD (c : Circuito) : Option Circuito :=
  if (c.zc_carga = 0) ∨ (c.za_carga = 0) ∨ (c.zb_carga = 0) then
    none
  else
    some { c with
      za_carga := (c.za_carga * c.zb_carga + c.zb_carga * c.zc_carga +
        c.zc_carga * c.za_carga) / c.zc_carga
      zb_carga := (c.za_carga * c.zb_carga + c.zb_carga * c.zc_carga +
        c.zc_carga * c.za_carga) / c.za_carga
      zc_carga := (c.za_carga * c.zb_carga + c.zb_carga * c.zc_carga +
        c.zc_carga * c.za_carga) / c.zb_carga }

/-- `Circuito.converteCargaDY` (circuito_trifasico.py lines 186-208): in-place
delta-to-star conversion of the load fields; the three divisions by the branch
sum raise exactly when `za_carga + zb_carga + zc_carga` is zero. -/
def converteCargaDY (c : Circuito) : Option Circuito :=
  if c.za_carga + c.zb_carga + c.zc_carga = 0 then
    none
  else
    some { c with
      za_carga := c.za_carga * c.zc_carga / (c.za_carga + c.zb_carga + c.zc_carga)
      zb_carga := c.zb_carga * c.za_carga / (c.za_carga + c.zb_carga + c.zc_carga)
      zc_carga := c.zc_carga * c.zb_carga / (c.za_carga + c.zb_carga + c.zc_carga) }

/-- Value of a numpy float64 expression: a finite real, a signed infinity, or
NaN.  numpy float division emits these without raising. -/
inductive FloatVal where
  | fin : ℝ → FloatVal
  | posInf : FloatVal
  | negInf : FloatVal
  | nan : FloatVal
deriving DecidableEq

/-- numpy float64 division `p / s`: finite quotient when `s ≠ 0`; for `s = 0`
(the positive zero of numpy) the result is NaN when `p = 0` and a signed infinity
otherwise — never an exception and never a tagged error. -/
def npDivFloat (p s : ℝ) : FloatVal :=
  if s = 0 then (if p = 0 then .nan else if 0 < p then .posInf else .negInf)
  else .fin (p / s)

/-- Result dictionary of `calculaPotencia` (calc_potencia.py): per-phase
complex powers, their real/imaginary parts and magnitudes, the complex total
and its parts, the power factor and its classification. -/
structure Potencias where
  S_A : ℂ
  S_B : ℂ
  S_C : ℂ
  P_A : ℝ
  P_B : ℝ
  P_C : ℝ
  Q_A : ℝ
  Q_B : ℝ
  Q_C : ℝ
  S_aparente_A : ℝ
  S_aparente_B : ℝ
  S_aparente_C : ℝ
  S_total : ℂ
  P_total : ℝ
  Q_total : ℝ
  S_aparente_total : ℝ
  fp : FloatVal
  tipo_fp : String

/-- `calculaPotencia` (calc_potencia.py lines 70-113): `S_x = V_x * conj(I_x)`
per phase, elementwise complex total, real/imag/abs of the total, unguarded
float division for the power factor, and the sign classification of `Q_total`. -/
def calculaPotencia (tensoes correntes : ℂ × ℂ × ℂ) : Potencias :=
  let S_A := tensoes.1 * (starRingEnd ℂ) correntes.1
  let S_B := tensoes.2.1 * (starRingEnd ℂ) correntes.2.1
  let S_C := tensoes.2.2 * (starRingEnd ℂ) correntes.2.2
  let S_total := S_A + S_B + S_C
  { S_A := S_A
    S_B := S_B
    S_C := S_C
    P_A := S_A.re
    P_B := S_B.re
    P_C := S_C.re
    Q_A := S_A.im
    Q_B := S_B.im
    Q_C := S_C.im
    S_aparente_A := Complex.abs S_A
    S_aparente_B := Complex.abs S_B
    S_aparente_C := Complex.abs S_C
    S_total := S_total
    P_total := S_total.re
    Q_total := S_total.im
    S_aparente_total := Complex.abs S_total
    fp := npDivFloat S_total.re (Complex.abs S_total)
    tipo_fp := if 0 < S_total.im then "atrasado (indutivo)."
      else if S_total.im < 0 then "adiantado (capacitivo)."
      else "em fase." }

/-- Quantities computed by the unbalanced-delta orchestrator up to the branch
currents: line currents, load corner-voltage differences, branch currents. -/
structure DeseqResult where
  I_a : ℂ
  I_b : ℂ
  I_c : ℂ
  V_albl : ℂ
  V_blcl : ℂ
  V_clal : ℂ
  I_ab : ℂ
  I_bc : ℂ
  I_ca : ℂ

/-- `calcula_D_deseq` (calc_circuito_deseq_D.py lines 63-98), embedded up to
the branch currents (the remainder of the source function only feeds these
values to `calculaPotencia` and prints).  The load impedances are snapshotted
into `zabOriginal`, `zbcOriginal`, `zcaOriginal` BEFORE `converteCargaDY`
mutates the circuit; the line currents are the phase-current functions applied
to the converted circuit (import aliases `correnteLinhaA/B/C` of
`correnteFaseA/B/C`); the branch currents divide the corner-voltage
differences by the snapshotted impedances, each division raising exactly when
its snapshot is zero. -/
def calcula_D_deseq (c : Circuito) : Option DeseqResult :=
  let zabOriginal := c.za_carga
  let zbcOriginal := c.zb_carga
  let zcaOriginal := c.zc_carga
  match converteCargaDY c with
  | none => none
  | some c2 =>
    match correnteFaseA c2, correnteFaseB c2, correnteFaseC c2 with
    | .val I_a, .val I_b, .val I_c =>
      let V_al := c2.va - I_a * c2.za_linha
      let V_bl := c2.vb - I_b * c2.zb_linha
      let V_cl := c2.vc - I_c * c2.zc_linha
      let V_albl := V_al - V_bl
      let V_blcl := V_bl - V_cl
      let V_clal := V_cl - V_al
      if (zabOriginal = 0) ∨ (zbcOriginal = 0) ∨ (zcaOriginal = 0) then
        none
      else
        some { I_a := I_a, I_b := I_b, I_c := I_c
               V_albl := V_albl, V_blcl := V_blcl, V_clal := V_clal
               I_ab := V_albl / zabOriginal
               I_bc := V_blcl / zbcOriginal
               I_ca := V_clal / zcaOriginal }
    | _, _, _ => none

/-- `tensaoCargaZa` (calc_tensao_carga.py lines 51-52): the phase-A current
multiplied by the phase-A load impedance; a non-complex current outcome makes
the Python multiplication raise. -/
def tensaoCargaZa (c : Circuito) : CurrentResult :=
  match correnteFaseA c with
  | .val x => .val (x * c.za_carga)
  | _ => .exn

/-- `tensaoCargaZb` (calc_tensao_carga.py lines 55-56). -/
def tensaoCargaZb (c : Circuito) : CurrentResult :=
  match correnteFaseB c with
  | .val x => .val (x * c.zb_carga)
  | _ => .exn

/-- `tensaoCargaZc` (calc_tensao_carga.py lines 59-60). -/
def tensaoCargaZc (c : Circuito) : CurrentResult :=
  match correnteFaseC c with
  | .val x => .val (x * c.zc_carga)
  | _ => .exn

/-- Concrete circuit used by several witnesses: 4 wires, zero source voltages,
zero line impedances, unit loads, zero neutral impedance. -/
def cw0 : Circuito := ⟨4, 0, 0, 0, 0, 0, 0, 1, 1, 1, 0⟩

/-- Concrete circuit with a zero phase-A total impedance (`za_linha = 0`,
`za_carga = 0`) and nonzero phase-B/C totals. -/
def czeroA : Circuito := ⟨3, 1, 1, 1, 0, 1, 1, 0, 1, 1, 0⟩

/-- Concrete circuit whose wire count is 5, neither 3 nor 4. -/
def cfios5 : Circuito := ⟨5, 0, 0, 0, 0, 0, 0, 1, 1, 1, 0⟩

/-- Concrete 3-wire circuit with unit loads, zero lines and `zn = 0`. -/
def c3zn0 : Circuito := ⟨3, 0, 0, 0, 0, 0, 0, 1, 1, 1, 0⟩

/-- Identical to `c3zn0` except for the neutral impedance, chosen so that the
denominator of `calcula_I_n` vanishes: `1 + zn/1 + zn/1 + zn/1 = 0`. -/
def c3znBad : Circuito := ⟨3, 0, 0, 0, 0, 0, 0, 1, 1, 1, -(1 / 3)⟩

/-- Concrete circuit with loads `(1, 1, -2)`: all nonzero, pairwise-product
sum `-3` nonzero, but branch sum `0`. -/
def cbad : Circuito := ⟨3, 0, 0, 0, 0, 0, 0, 1, 1, -2, 0⟩

theorem calcula_I_n_some_elim {c : Circuito} {x : ℂ} (h : calcula_I_n c = some x) :
    c.za_carga + c.za_linha ≠ 0 ∧ c.zb_carga + c.zb_linha ≠ 0 ∧ c.zc_carga + c.zc_linha ≠ 0 ∧
      1 + c.zn / (c.za_carga + c.za_linha) + c.zn / (c.zb_carga + c.zb_linha) +
        c.zn / (c.zc_carga + c.zc_linha) ≠ 0 ∧
      x = (c.va / (c.za_carga + c.za_linha) + c.vb / (c.zb_carga + c.zb_linha) +
          c.vc / (c.zc_carga + c.zc_linha)) /
        (1 + c.zn / (c.za_carga + c.za_linha) + c.zn / (c.zb_carga + c.zb_linha) +
          c.zn / (c.zc_carga + c.zc_linha)) := by
  unfold calcula_I_n at h
  split at h
  · exact absurd h (by simp)
  · next hcond =>
    push_neg at hcond
    exact ⟨hcond.1, hcond.2.1, hcond.2.2.1, hcond.2.2.2, (Option.some.inj h).symm⟩

theorem calcula_V_nl_n_some_elim {c : Circuito} {x : ℂ} (h : calcula_V_nl_n c = some x) :
    c.za_carga + c.za_linha ≠ 0 ∧ c.zb_carga + c.zb_linha ≠ 0 ∧ c.zc_carga + c.zc_linha ≠ 0 ∧
      1 / (c.za_carga + c.za_linha) + 1 / (c.zb_carga + c.zb_linha) +
        1 / (c.zc_carga + c.zc_linha) ≠ 0 ∧
      x = (c.va / (c.za_carga + c.za_linha) + c.vb / (c.zb_carga + c.zb_linha) +
          c.vc / (c.zc_carga + c.zc_linha)) /
        (1 / (c.za_carga + c.za_linha) + 1 / (c.zb_carga + c.zb_linha) +
          1 / (c.zc_carga + c.zc_linha)) := by
  unfold calcula_V_nl_n at h
  split at h
  · exact absurd h (by simp)
  · next hcond =>
    push_neg at hcond
    exact ⟨hcond.1, hcond.2.1, hcond.2.2.1, hcond.2.2.2, (Option.some.inj h).symm⟩

theorem correnteFaseA_val_elim {c : Circuito} {x : ℂ} (h : correnteFaseA c = .val x) :
    ∃ I_n V_nl_n, calcula_I_n c = some I_n ∧ calcula_V_nl_n c = some V_nl_n ∧
      c.za_linha + c.za_carga ≠ 0 ∧
      ((c.fios = 3 ∧
          x = c.va / (c.za_linha + c.za_carga) - V_nl_n / (c.za_linha + c.za_carga)) ∨
        (c.fios ≠ 3 ∧
          x = c.va / (c.za_linha + c.za_carga) - I_n * c.zn / (c.za_linha + c.za_carga))) := by
  unfold correnteFaseA at h
  split at h
  · exact absurd h (by simp)
  · next I_n hI =>
    split at h
    · exact absurd h (by simp)
    · next V hV =>
      split at h
      · exact absurd h (by simp)
      · next h0 =>
        split at h
        · next h3 =>
          exact ⟨I_n, V, hI, hV, h0, Or.inl ⟨h3, (CurrentResult.val.inj h).symm⟩⟩
        · next h3 =>
          exact ⟨I_n, V, hI, hV, h0, Or.inr ⟨h3, (CurrentResult.val.inj h).symm⟩⟩

theorem correnteFaseB_val_elim {c : Circuito} {x : ℂ} (h : correnteFaseB c = .val x) :
    ∃ I_n V_nl_n, calcula_I_n c = some I_n ∧ calcula_V_nl_n c = some V_nl_n ∧
      c.zb_linha + c.zb_carga ≠ 0 ∧
      ((c.fios = 3 ∧
          x = c.vb / (c.zb_linha + c.zb_carga) - V_nl_n / (c.zb_linha + c.zb_carga)) ∨
        (c.fios ≠ 3 ∧
          x = c.vb / (c.zb_linha + c.zb_carga) - I_n * c.zn / (c.zb_linha + c.zb_carga))) := by
  unfold correnteFaseB at h
  split at h
  · exact absurd h (by simp)
  · next I_n hI =>
    split at h
    · exact absurd h (by simp)
    · next V hV =>
      split at h
      · exact absurd h (by simp)
      · next h0 =>
        split at h
        · next h3 =>
          exact ⟨I_n, V, hI, hV, h0, Or.inl ⟨h3, (CurrentResult.val.inj h).symm⟩⟩
        · next h3 =>
          exact ⟨I_n, V, hI, hV, h0, Or.inr ⟨h3, (CurrentResult.val.inj h).symm⟩⟩

theorem correnteFaseC_val_elim {c : Circuito} {x : ℂ} (h : correnteFaseC c = .val x) :
    ∃ I_n V_nl_n, calcula_I_n c = some I_n ∧ calcula_V_nl_n c = some V_nl_n ∧
      c.zc_linha + c.zc_carga ≠ 0 ∧
      ((c.fios = 3 ∧
          x = c.vc / (c.zc_linha + c.zc_carga) - V_nl_n / (c.zc_linha + c.zc_carga)) ∨
        (c.fios ≠ 3 ∧
          x = c.vc / (c.zc_linha + c.zc_carga) - I_n * c.zn / (c.zc_linha + c.zc_carga))) := by
  unfold correnteFaseC at h
  split at h
  · exact absurd h (by simp)
  · next I_n hI =>
    split at h
    · exact absurd h (by simp)
    · next V hV =>
      split at h
      · exact absurd h (by simp)
      · next h0 =>
        split at h
        · next h3 =>
          exact ⟨I_n, V, hI, hV, h0, Or.inl ⟨h3, (CurrentResult.val.inj h).symm⟩⟩
        · next h3 =>
          exact ⟨I_n, V, hI, hV, h0, Or.inr ⟨h3, (CurrentResult.val.inj h).symm⟩⟩

/-- Claim C3: `calculaPotencia` returns per-phase complex powers
`S_x = V_x * conj(I_x)`, the complex total `S_total = S_A + S_B + S_C`,
`P_total = Re(S_total)`, `Q_total = Im(S_total)`, and
`S_aparente_total = |S_total|` — the magnitude of the complex sum; the second
conjunct exhibits inputs where the magnitude of the sum (0) differs from the
sum of the three per-phase magnitudes (2), so the two readings disagree. -/
theorem claim_C3_calculaPotencia_totais :
    (∀ va vb vc ia ib ic : ℂ,
      (calculaPotencia (va, vb, vc) (ia, ib, ic)).S_A = va * (starRingEnd ℂ) ia ∧
      (calculaPotencia (va, vb, vc) (ia, ib, ic)).S_B = vb * (starRingEnd ℂ) ib ∧
      (calculaPotencia (va, vb, vc) (ia, ib, ic)).S_C = vc * (starRingEnd ℂ) ic ∧
      (calculaPotencia (va, vb, vc) (ia, ib, ic)).S_total =
        (calculaPotencia (va, vb, vc) (ia, ib, ic)).S_A +
          (calculaPotencia (va, vb, vc) (ia, ib, ic)).S_B +
          (calculaPotencia (va, vb, vc) (ia, ib, ic)).S_C ∧
      (calculaPotencia (va, vb, vc) (ia, ib, ic)).P_total =
        ((calculaPotencia (va, vb, vc) (ia, ib, ic)).S_total).re ∧
      (calculaPotencia (va, vb, vc) (ia, ib, ic)).Q_total =
        ((calculaPotencia (va, vb, vc) (ia, ib, ic)).S_total).im ∧
      (calculaPotencia (va, vb, vc) (ia, ib, ic)).S_aparente_total =
        Complex.abs ((calculaPotencia (va, vb, vc) (ia, ib, ic)).S_total)) ∧
    (calculaPotencia (1, 1, 0) (1, -1, 0)).S_aparente_total = 0 ∧
    (calculaPotencia (1, 1, 0) (1, -1, 0)).S_aparente_A +
        (calculaPotencia (1, 1, 0) (1, -1, 0)).S_aparente_B +
        (calculaPotencia (1, 1, 0) (1, -1, 0)).S_aparente_C = 2 := by
  refine ⟨fun va vb vc ia ib ic => ⟨rfl, rfl, rfl, rfl, rfl, rfl, rfl⟩, ?_, ?_⟩
  · norm_num [calculaPotencia]
  · norm_num [calculaPotencia]

/-- Claim C5: whenever the three phase-current functions return complex branch
currents `Iab`, `Ibc`, `Ica`, the line-current functions return
`Ia = Iab - Ica`, `Ib = Ibc - Iab`, `Ic = Ica - Ibc`, and these sum to zero
exactly. -/
theorem claim_C5_line_currents_sum_zero (c : Circuito) (Iab Ibc Ica : ℂ)
    (hA : correnteFaseA c = .val Iab) (hB : correnteFaseB c = .val Ibc)
    (hC : correnteFaseC c = .val Ica) :
    correnteLinhaA c = .val (Iab - Ica) ∧
    correnteLinhaB c = .val (Ibc - Iab) ∧
    correnteLinhaC c = .val (Ica - Ibc) ∧
    (Iab - Ica) + (Ibc - Iab) + (Ica - Ibc) = 0 := by
  refine ⟨?_, ?_, ?_, by ring⟩ <;>
    simp [correnteLinhaA, correnteLinhaB, correnteLinhaC, subResult, hA, hB, hC]

/-- Witness for claim C5 at the concrete circuit `cw0`. -/
theorem claim_C5_line_currents_sum_zero_witness :
    correnteLinhaA cw0 = .val ((0 : ℂ) - 0) ∧
    correnteLinhaB cw0 = .val ((0 : ℂ) - 0) ∧
    correnteLinhaC cw0 = .val ((0 : ℂ) - 0) ∧
    ((0 : ℂ) - 0) + ((0 : ℂ) - 0) + ((0 : ℂ) - 0) = 0 :=
  claim_C5_line_currents_sum_zero cw0 0 0 0
    (by norm_num [correnteFaseA, calcula_I_n, calcula_V_nl_n, cw0])
    (by norm_num [correnteFaseB, calcula_I_n, calcula_V_nl_n, cw0])
    (by norm_num [correnteFaseC, calcula_I_n, calcula_V_nl_n, cw0])

theorem correnteFaseA_str_elim {c : Circuito} {s : String}
    (h : correnteFaseA c = .strMsg s) : False := by
  unfold correnteFaseA at h
  split at h
  · exact absurd h (by simp)
  · next I_n hI =>
    split at h
    · exact absurd h (by simp)
    · next V hV =>
      split at h
      · next h0 =>
        have hne := (calcula_V_nl_n_some_elim hV).1
        rw [add_comm] at h0
        exact hne h0
      · split at h <;> exact absurd h (by simp)

theorem correnteFaseB_str_elim {c : Circuito} {s : String}
    (h : correnteFaseB c = .strMsg s) : False := by
  unfold correnteFaseB at h
  split at h
  · exact absurd h (by simp)
  · next I_n hI =>
    split at h
    · exact absurd h (by simp)
    · next V hV =>
      split at h
      · next h0 =>
        have hne := (calcula_V_nl_n_some_elim hV).2.1
        rw [add_comm] at h0
        exact hne h0
      · split at h <;> exact absurd h (by simp)

theorem correnteFaseC_str_elim {c : Circuito} {s : String}
    (h : correnteFaseC c = .strMsg s) : False := by
  unfold correnteFaseC at h
  split at h
  · exact absurd h (by simp)
  · next I_n hI =>
    split at h
    · exact absurd h (by simp)
    · next V hV =>
      split at h
      · next h0 =>
        have hne := (calcula_V_nl_n_some_elim hV).2.2.1
        rw [add_comm] at h0
        exact hne h0
      · split at h <;> exact absurd h (by simp)

/-- Claim C10: `calcula_I_n()` and `calcula_V_nl_n()` are evaluated before the
zero-total guard of every phase-current function, so whenever ANY phase total
is zero all three calls escape with an unguarded division-by-zero (`exn`), and
the descriptive-string branch is unreachable for every circuit. -/
theorem claim_C10_dead_string_branch (c : Circuito) :
    ((c.za_linha + c.za_carga = 0 ∨ c.zb_linha + c.zb_carga = 0 ∨
        c.zc_linha + c.zc_carga = 0) →
      correnteFaseA c = .exn ∧ correnteFaseB c = .exn ∧ correnteFaseC c = .exn) ∧
    (∀ s, correnteFaseA c ≠ .strMsg s ∧ correnteFaseB c ≠ .strMsg s ∧
      correnteFaseC c ≠ .strMsg s) := by
  constructor
  · intro h
    have hnone : calcula_I_n c = none := by
      unfold calcula_I_n
      rw [if_pos]
      rcases h with h | h | h
      · exact Or.inl (by rw [add_comm]; exact h)
      · exact Or.inr (Or.inl (by rw [add_comm]; exact h))
      · exact Or.inr (Or.inr (Or.inl (by rw [add_comm]; exact h)))
    refine ⟨?_, ?_, ?_⟩
    · unfold correnteFaseA; rw [hnone]
    · unfold correnteFaseB; rw [hnone]
    · unfold correnteFaseC; rw [hnone]
  · intro s
    exact ⟨fun h => correnteFaseA_str_elim h, fun h => correnteFaseB_str_elim h,
      fun h => correnteFaseC_str_elim h⟩

/-- Witness for claim C10 at `czeroA`, whose phase-A total impedance is zero. -/
theorem claim_C10_dead_string_branch_witness :
    (correnteFaseA czeroA = .exn ∧ correnteFaseB czeroA = .exn ∧
      correnteFaseC czeroA = .exn) ∧
    (correnteFaseA czeroA ≠ .strMsg "Impedância total na fase A é nula" ∧
      correnteFaseB czeroA ≠ .strMsg "Impedância total na fase A é nula" ∧
      correnteFaseC czeroA ≠ .strMsg "Impedância total na fase A é nula") :=
  ⟨(claim_C10_dead_string_branch czeroA).1 (Or.inl (by norm_num [czeroA])),
    (claim_C10_dead_string_branch czeroA).2 "Impedância total na fase A é nula"⟩

/-- Claim C2 (code bug evidence): at `czeroA`, whose phase-A total impedance
`Zline_A + Zload_A` is zero, `correnteFaseA` escapes with the unhandled
`ZeroDivisionError` raised inside the unconditional `calcula_I_n()` call; the
descriptive string promised by the docstring of the function is never returned. -/
theorem claim_C2_zero_total_phaseA_raises :
    correnteFaseA czeroA = CurrentResult.exn ∧
    ∀ s, correnteFaseA czeroA ≠ CurrentResult.strMsg s := by
  have he : correnteFaseA czeroA = CurrentResult.exn := by
    norm_num [correnteFaseA, calcula_I_n, czeroA]
  exact ⟨he, fun s h => by simp [he] at h⟩

/-- Claim C6 (amended): no operation validates the wire count; every circuit
whose `fios` differs from 3 — including invalid counts such as 5 — is treated
by the phase-current functions exactly as the same circuit with `fios = 4`. -/
theorem claim_C6_no_wire_count_check (c : Circuito) (h : c.fios ≠ 3) :
    correnteFaseA c = correnteFaseA { c with fios := 4 } ∧
    correnteFaseB c = correnteFaseB { c with fios := 4 } ∧
    correnteFaseC c = correnteFaseC { c with fios := 4 } := by
  have e1 : calcula_I_n { c with fios := 4 } = calcula_I_n c := rfl
  have e2 : calcula_V_nl_n { c with fios := 4 } = calcula_V_nl_n c := rfl
  refine ⟨?_, ?_, ?_⟩
  · unfold correnteFaseA
    rw [e1, e2]
    cases hI : calcula_I_n c with
    | none => rfl
    | some I_n =>
      cases hV : calcula_V_nl_n c with
      | none => rfl
      | some V => simp [h]
  · unfold correnteFaseB
    rw [e1, e2]
    cases hI : calcula_I_n c with
    | none => rfl
    | some I_n =>
      cases hV : calcula_V_nl_n c with
      | none => rfl
      | some V => simp [h]
  · unfold correnteFaseC
    rw [e1, e2]
    cases hI : calcula_I_n c with
    | none => rfl
    | some I_n =>
      cases hV : calcula_V_nl_n c with
      | none => rfl
      | some V => simp [h]

/-- Counterexample to claim C6 as stated: the wire count 5 is neither 3 nor 4,
yet `correnteFaseA` silently returns a numeric current instead of surfacing an
InvalidWireCount failure. -/
theorem claim_C6_counterexample :
    cfios5.fios ≠ 3 ∧ cfios5.fios ≠ 4 ∧ correnteFaseA cfios5 = CurrentResult.val 0 := by
  refine ⟨by norm_num [cfios5], by norm_num [cfios5], ?_⟩
  norm_num [correnteFaseA, calcula_I_n, calcula_V_nl_n, cfios5]

/-- Witness for the amended claim C6 at the wire count 5. -/
theorem claim_C6_no_wire_count_check_witness :
    correnteFaseA cfios5 = correnteFaseA { cfios5 with fios := 4 } ∧
    correnteFaseB cfios5 = correnteFaseB { cfios5 with fios := 4 } ∧
    correnteFaseC cfios5 = correnteFaseC { cfios5 with fios := 4 } :=
  claim_C6_no_wire_count_check cfios5 (by norm_num [cfios5])

/-- Counterexample to claim C7 as stated: at all-zero voltage and current
triples the total apparent power is zero, and `calculaPotencia` returns the
silent float NaN as the power factor (with the "em fase." classification)
rather than surfacing an explicit failure result. -/
theorem claim_C7_counterexample :
    (calculaPotencia (0, 0, 0) (0, 0, 0)).S_aparente_total = 0 ∧
    (calculaPotencia (0, 0, 0) (0, 0, 0)).fp = FloatVal.nan ∧
    (calculaPotencia (0, 0, 0) (0, 0, 0)).tipo_fp = "em fase." := by
  norm_num [calculaPotencia, npDivFloat]

/-- Claim C7 (amended): whenever the total apparent power is zero, the power
factor field of `calculaPotencia` is the NaN silently produced by the
unguarded float division `P_total / |S_total|`, not an explicit failure. -/
theorem claim_C7_fp_nan_of_zero_apparent (tensoes correntes : ℂ × ℂ × ℂ)
    (h : (calculaPotencia tensoes correntes).S_aparente_total = 0) :
    (calculaPotencia tensoes correntes).fp = FloatVal.nan := by
  unfold calculaPotencia at h ⊢
  simp only at h ⊢
  rw [map_eq_zero] at h
  rw [h]
  norm_num [npDivFloat]

/-- Witness for the amended claim C7 at the all-zero triples. -/
theorem claim_C7_fp_nan_of_zero_apparent_witness :
    (calculaPotencia (0, 0, 0) (0, 0, 0)).fp = FloatVal.nan :=
  claim_C7_fp_nan_of_zero_apparent (0, 0, 0) (0, 0, 0) (by norm_num [calculaPotencia])

/-- Claim C8 (amended): for a 3-wire circuit with nonzero per-phase totals,
two stored neutral impedances whose `calcula_I_n` denominators are both
nonzero yield identical phase currents and load phase voltages; the neutral
impedance can influence a 3-wire run only by making the unconditional
`calcula_I_n()` call raise a division-by-zero. -/
theorem claim_C8_zn_noninterference_3wire (c : Circuito) (zn1 zn2 : ℂ)
    (h3 : c.fios = 3)
    (hta : c.za_carga + c.za_linha ≠ 0) (htb : c.zb_carga + c.zb_linha ≠ 0)
    (htc : c.zc_carga + c.zc_linha ≠ 0)
    (hd1 : 1 + zn1 / (c.za_carga + c.za_linha) + zn1 / (c.zb_carga + c.zb_linha) +
      zn1 / (c.zc_carga + c.zc_linha) ≠ 0)
    (hd2 : 1 + zn2 / (c.za_carga + c.za_linha) + zn2 / (c.zb_carga + c.zb_linha) +
      zn2 / (c.zc_carga + c.zc_linha) ≠ 0) :
    correnteFaseA { c with zn := zn1 } = correnteFaseA { c with zn := zn2 } ∧
    correnteFaseB { c with zn := zn1 } = correnteFaseB { c with zn := zn2 } ∧
    correnteFaseC { c with zn := zn1 } = correnteFaseC { c with zn := zn2 } ∧
    tensaoCargaZa { c with zn := zn1 } = tensaoCargaZa { c with zn := zn2 } ∧
    tensaoCargaZb { c with zn := zn1 } = tensaoCargaZb { c with zn := zn2 } ∧
    tensaoCargaZc { c with zn := zn1 } = tensaoCargaZc { c with zn := zn2 } := by
  have hI1 : ∃ x, calcula_I_n { c with zn := zn1 } = some x := by
    unfold calcula_I_n
    rw [if_neg]
    · exact ⟨_, rfl⟩
    · push_neg
      exact ⟨hta, htb, htc, hd1⟩
  have hI2 : ∃ x, calcula_I_n { c with zn := zn2 } = some x := by
    unfold calcula_I_n
    rw [if_neg]
    · exact ⟨_, rfl⟩
    · push_neg
      exact ⟨hta, htb, htc, hd2⟩
  obtain ⟨In1, hIn1⟩ := hI1
  obtain ⟨In2, hIn2⟩ := hI2
  have hVeq : calcula_V_nl_n { c with zn := zn1 } = calcula_V_nl_n { c with zn := zn2 } := rfl
  have eqA : correnteFaseA { c with zn := zn1 } = correnteFaseA { c with zn := zn2 } := by
    unfold correnteFaseA
    rw [hIn1, hIn2, hVeq]
    cases hV : calcula_V_nl_n { c with zn := zn2 } with
    | none => rfl
    | some V => simp [h3]
  have eqB : correnteFaseB { c with zn := zn1 } = correnteFaseB { c with zn := zn2 } := by
    unfold correnteFaseB
    rw [hIn1, hIn2, hVeq]
    cases hV : calcula_V_nl_n { c with zn := zn2 } with
    | none => rfl
    | some V => simp [h3]
  have eqC : correnteFaseC { c with zn := zn1 } = correnteFaseC { c with zn := zn2 } := by
    unfold correnteFaseC
    rw [hIn1, hIn2, hVeq]
    cases hV : calcula_V_nl_n { c with zn := zn2 } with
    | none => rfl
    | some V => simp [h3]
  refine ⟨eqA, eqB, eqC, ?_, ?_, ?_⟩
  · unfold tensaoCargaZa
    rw [eqA]
  · unfold tensaoCargaZb
    rw [eqB]
  · unfold tensaoCargaZc
    rw [eqC]

/-- Counterexample to claim C8 as stated: `c3zn0` and `c3znBad` are 3-wire
circuits with nonzero per-phase totals that differ only in the stored neutral
impedance, yet one run returns a current and the other escapes with the
division-by-zero raised inside the unconditional `calcula_I_n()` call. -/
theorem claim_C8_counterexample :
    c3zn0.fios = 3 ∧ c3znBad = { c3zn0 with zn := -(1 / 3) } ∧
    c3zn0.za_linha + c3zn0.za_carga ≠ 0 ∧ c3zn0.zb_linha + c3zn0.zb_carga ≠ 0 ∧
    c3zn0.zc_linha + c3zn0.zc_carga ≠ 0 ∧
    correnteFaseA c3zn0 = CurrentResult.val 0 ∧
    correnteFaseA c3znBad = CurrentResult.exn := by
  refine ⟨rfl, rfl, by norm_num [c3zn0], by norm_num [c3zn0], by norm_num [c3zn0], ?_, ?_⟩
  · norm_num [correnteFaseA, calcula_I_n, calcula_V_nl_n, c3zn0]
  · norm_num [correnteFaseA, calcula_I_n, c3znBad]

/-- Witness for the amended claim C8 at `c3zn0` with neutral impedances 0, 1. -/
theorem claim_C8_zn_noninterference_3wire_witness :
    correnteFaseA { c3zn0 with zn := 0 } = correnteFaseA { c3zn0 with zn := 1 } ∧
    correnteFaseB { c3zn0 with zn := 0 } = correnteFaseB { c3zn0 with zn := 1 } ∧
    correnteFaseC { c3zn0 with zn := 0 } = correnteFaseC { c3zn0 with zn := 1 } ∧
    tensaoCargaZa { c3zn0 with zn := 0 } = tensaoCargaZa { c3zn0 with zn := 1 } ∧
    tensaoCargaZb { c3zn0 with zn := 0 } = tensaoCargaZb { c3zn0 with zn := 1 } ∧
    tensaoCargaZc { c3zn0 with zn := 0 } = tensaoCargaZc { c3zn0 with zn := 1 } :=
  claim_C8_zn_noninterference_3wire c3zn0 0 1 rfl
    (by norm_num [c3zn0]) (by norm_num [c3zn0]) (by norm_num [c3zn0])
    (by norm_num [c3zn0]) (by norm_num [c3zn0])

/-- Counterexample to claim C4 as stated: the loads `(1, 1, -2)` of `cbad` are
all nonzero and have nonzero pairwise-product sum `-3`, yet the Δ→Y conversion
— the first step of the stated round trip — already fails, because its actual
denominator, the branch sum `Zab+Zbc+Zca`, is zero. -/
theorem claim_C4_counterexample :
    cbad.za_carga ≠ 0 ∧ cbad.zb_carga ≠ 0 ∧ cbad.zc_carga ≠ 0 ∧
    cbad.za_carga * cbad.zb_carga + cbad.zb_carga * cbad.zc_carga +
      cbad.zc_carga * cbad.za_carga ≠ 0 ∧
    converteCargaDY cbad = none := by
  refine ⟨by norm_num [cbad], by norm_num [cbad], by norm_num [cbad],
    by norm_num [cbad], ?_⟩
  norm_num [converteCargaDY, cbad]

set_option maxHeartbeats 1000000 in
/-- Claim C4 (amended): with all three loads nonzero, Δ→Y then Y→Δ restores
the load impedances exactly when the branch sum `Za+Zb+Zc` is nonzero (the
denominator actually required by the first division of the code), and Y→Δ then Δ→Y
restores them exactly when the pairwise-product sum `ZaZb+ZbZc+ZcZa` is
nonzero; the pairwise-product-sum precondition does not suffice for the
Δ→Y-first order. -/
theorem claim_C4_round_trip (c : Circuito)
    (ha : c.za_carga ≠ 0) (hb : c.zb_carga ≠ 0) (hc : c.zc_carga ≠ 0) :
    (c.za_carga + c.zb_carga + c.zc_carga ≠ 0 →
      ∃ c2 c3, converteCargaDY c = some c2 ∧ converteCargaYD c2 = some c3 ∧
        c3.za_carga = c.za_carga ∧ c3.zb_carga = c.zb_carga ∧
        c3.zc_carga = c.zc_carga) ∧
    (c.za_carga * c.zb_carga + c.zb_carga * c.zc_carga + c.zc_carga * c.za_carga ≠ 0 →
      ∃ c2 c3, converteCargaYD c = some c2 ∧ converteCargaDY c2 = some c3 ∧
        c3.za_carga = c.za_carga ∧ c3.zb_carga = c.zb_carga ∧
        c3.zc_carga = c.zc_carga) := by
  obtain ⟨fios, va, vb, vc, zal, zbl, zcl, za, zb, zc, zn⟩ := c
  dsimp only at ha hb hc ⊢
  constructor
  · intro hs
    have hA2 : za * zc / (za + zb + zc) ≠ 0 := div_ne_zero (mul_ne_zero ha hc) hs
    have hB2 : zb * za / (za + zb + zc) ≠ 0 := div_ne_zero (mul_ne_zero hb ha) hs
    have hC2 : zc * zb / (za + zb + zc) ≠ 0 := div_ne_zero (mul_ne_zero hc hb) hs
    refine ⟨⟨fios, va, vb, vc, zal, zbl, zcl, za * zc / (za + zb + zc),
        zb * za / (za + zb + zc), zc * zb / (za + zb + zc), zn⟩,
      ⟨fios, va, vb, vc, zal, zbl, zcl, za, zb, zc, zn⟩, ?_, ?_, rfl, rfl, rfl⟩
    · simp only [converteCargaDY]
      rw [if_neg hs]
    · have hcond : ¬(zc * zb / (za + zb + zc) = 0 ∨ za * zc / (za + zb + zc) = 0 ∨
          zb * za / (za + zb + zc) = 0) := by
        push_neg
        exact ⟨hC2, hA2, hB2⟩
      have hP : za * zc / (za + zb + zc) * (zb * za / (za + zb + zc)) +
          zb * za / (za + zb + zc) * (zc * zb / (za + zb + zc)) +
          zc * zb / (za + zb + zc) * (za * zc / (za + zb + zc)) =
          za * zb * zc / (za + zb + zc) := by
        field_simp
        ring
      simp only [converteCargaYD]
      rw [if_neg hcond]
      simp only [Option.some.injEq, Circuito.mk.injEq, true_and, and_true]
      refine ⟨?_, ?_, ?_⟩ <;>
      · rw [hP]
        field_simp
        ring
  · intro hp
    have hA2 : (za * zb + zb * zc + zc * za) / zc ≠ 0 := div_ne_zero hp hc
    have hB2 : (za * zb + zb * zc + zc * za) / za ≠ 0 := div_ne_zero hp ha
    have hC2 : (za * zb + zb * zc + zc * za) / zb ≠ 0 := div_ne_zero hp hb
    have heq : (za * zb + zb * zc + zc * za) / zc + (za * zb + zb * zc + zc * za) / za +
        (za * zb + zb * zc + zc * za) / zb =
        (za * zb + zb * zc + zc * za) * (za * zb + zb * zc + zc * za) /
          (za * zb * zc) := by
      field_simp
      ring
    have hsum2 : ¬((za * zb + zb * zc + zc * za) / zc + (za * zb + zb * zc + zc * za) / za +
        (za * zb + zb * zc + zc * za) / zb = 0) := by
      rw [heq]
      exact div_ne_zero (mul_ne_zero hp hp) (mul_ne_zero (mul_ne_zero ha hb) hc)
    have hcond : ¬((zc = 0) ∨ (za = 0) ∨ (zb = 0)) := by
      push_neg
      exact ⟨hc, ha, hb⟩
    refine ⟨⟨fios, va, vb, vc, zal, zbl, zcl, (za * zb + zb * zc + zc * za) / zc,
        (za * zb + zb * zc + zc * za) / za, (za * zb + zb * zc + zc * za) / zb, zn⟩,
      ⟨fios, va, vb, vc, zal, zbl, zcl, za, zb, zc, zn⟩, ?_, ?_, rfl, rfl, rfl⟩
    · simp only [converteCargaYD]
      rw [if_neg hcond]
    · simp only [converteCargaDY]
      rw [if_neg hsum2]
      simp only [Option.some.injEq, Circuito.mk.injEq, true_and, and_true]
      refine ⟨?_, ?_, ?_⟩ <;>
      · rw [heq]
        field_simp
        ring

/-- Witness for the amended claim C4 at the unit loads of `c3zn0`, in both
conversion orders. -/
theorem claim_C4_round_trip_witness :
    (∃ c2 c3, converteCargaDY c3zn0 = some c2 ∧ converteCargaYD c2 = some c3 ∧
      c3.za_carga = c3zn0.za_carga ∧ c3.zb_carga = c3zn0.zb_carga ∧
      c3.zc_carga = c3zn0.zc_carga) ∧
    (∃ c2 c3, converteCargaYD c3zn0 = some c2 ∧ converteCargaDY c2 = some c3 ∧
      c3.za_carga = c3zn0.za_carga ∧ c3.zb_carga = c3zn0.zb_carga ∧
      c3.zc_carga = c3zn0.zc_carga) :=
  ⟨(claim_C4_round_trip c3zn0 (by norm_num [c3zn0]) (by norm_num [c3zn0])
      (by norm_num [c3zn0])).1 (by norm_num [c3zn0]),
    (claim_C4_round_trip c3zn0 (by norm_num [c3zn0]) (by norm_num [c3zn0])
      (by norm_num [c3zn0])).2 (by norm_num [c3zn0])⟩

set_option maxHeartbeats 1000000 in
/-- Claim C9 (Kirchhoff current law at the neutral): whenever the three
phase-current functions return complex currents, their sum equals the value of
`calcula_I_n()` for a 4-wire circuit and vanishes exactly for a 3-wire
circuit. -/
theorem claim_C9_kcl_neutral (c : Circuito) (Ia Ib Ic : ℂ)
    (hA : correnteFaseA c = .val Ia) (hB : correnteFaseB c = .val Ib)
    (hC : correnteFaseC c = .val Ic) :
    (c.fios = 3 → Ia + Ib + Ic = 0) ∧
    (c.fios = 4 → ∃ In, calcula_I_n c = some In ∧ Ia + Ib + Ic = In) := by
  obtain ⟨In, Vnn, hIn, hVnn, hta, hAx⟩ := correnteFaseA_val_elim hA
  obtain ⟨In2, Vnn2, hIn2, hVnn2, htb, hBx⟩ := correnteFaseB_val_elim hB
  obtain ⟨In3, Vnn3, hIn3, hVnn3, htc, hCx⟩ := correnteFaseC_val_elim hC
  rw [hIn] at hIn2 hIn3
  rw [hVnn] at hVnn2 hVnn3
  obtain rfl : In = In2 := Option.some.inj hIn2
  obtain rfl : In = In3 := Option.some.inj hIn3
  obtain rfl : Vnn = Vnn2 := Option.some.inj hVnn2
  obtain rfl : Vnn = Vnn3 := Option.some.inj hVnn3
  obtain ⟨h1, h2, h3, hD, hInEq⟩ := calcula_I_n_some_elim hIn
  obtain ⟨-, -, -, hT, hVnnEq⟩ := calcula_V_nl_n_some_elim hVnn
  have hVT : Vnn * (1 / (c.za_carga + c.za_linha) + 1 / (c.zb_carga + c.zb_linha) +
      1 / (c.zc_carga + c.zc_linha)) =
      c.va / (c.za_carga + c.za_linha) + c.vb / (c.zb_carga + c.zb_linha) +
        c.vc / (c.zc_carga + c.zc_linha) := by
    rw [hVnnEq, div_mul_cancel₀ _ hT]
  have hID : In * (1 + c.zn / (c.za_carga + c.za_linha) + c.zn / (c.zb_carga + c.zb_linha) +
      c.zn / (c.zc_carga + c.zc_linha)) =
      c.va / (c.za_carga + c.za_linha) + c.vb / (c.zb_carga + c.zb_linha) +
        c.vc / (c.zc_carga + c.zc_linha) := by
    rw [hInEq, div_mul_cancel₀ _ hD]
  constructor
  · intro hf3
    rcases hAx with ⟨-, hxa⟩ | ⟨hne, -⟩
    · rcases hBx with ⟨-, hxb⟩ | ⟨hne, -⟩
      · rcases hCx with ⟨-, hxc⟩ | ⟨hne, -⟩
        · subst hxa hxb hxc
          field_simp at hVT ⊢
          linear_combination -hVT
        · exact absurd hf3 hne
      · exact absurd hf3 hne
    · exact absurd hf3 hne
  · intro hf4
    have hne3 : c.fios ≠ 3 := by
      rw [hf4]
      decide
    rcases hAx with ⟨h3f, -⟩ | ⟨-, hxa⟩
    · exact absurd h3f hne3
    rcases hBx with ⟨h3f, -⟩ | ⟨-, hxb⟩
    · exact absurd h3f hne3
    rcases hCx with ⟨h3f, -⟩ | ⟨-, hxc⟩
    · exact absurd h3f hne3
    refine ⟨In, hIn, ?_⟩
    subst hxa hxb hxc
    field_simp at hID ⊢
    linear_combination -hID

/-- Witness for claim C9 at the concrete 4-wire circuit `cw0`. -/
theorem claim_C9_kcl_neutral_witness :
    (cw0.fios = 3 → (0 : ℂ) + 0 + 0 = 0) ∧
    (cw0.fios = 4 → ∃ In, calcula_I_n cw0 = some In ∧ (0 : ℂ) + 0 + 0 = In) :=
  claim_C9_kcl_neutral cw0 0 0 0
    (by norm_num [correnteFaseA, calcula_I_n, calcula_V_nl_n, cw0])
    (by norm_num [correnteFaseB, calcula_I_n, calcula_V_nl_n, cw0])
    (by norm_num [correnteFaseC, calcula_I_n, calcula_V_nl_n, cw0])

/-- Claim C1: the unbalanced-Δ orchestrator snapshots the Δ branch impedances
before `converteCargaDY` mutates the circuit, and the reported branch currents
divide the corner-voltage differences — built from the phase currents of the
converted circuit — by those ORIGINAL impedances, not by the converted ones. -/
theorem claim_C1_deseq_uses_original_delta (c c2 : Circuito) (Ia Ib Ic : ℂ)
    (hconv : converteCargaDY c = some c2)
    (hA : correnteFaseA c2 = .val Ia) (hB : correnteFaseB c2 = .val Ib)
    (hC : correnteFaseC c2 = .val Ic)
    (hza : c.za_carga ≠ 0) (hzb : c.zb_carga ≠ 0) (hzc : c.zc_carga ≠ 0) :
    ∃ r, calcula_D_deseq c = some r ∧
      r.I_a = Ia ∧ r.I_b = Ib ∧ r.I_c = Ic ∧
      r.I_ab = ((c.va - Ia * c.za_linha) - (c.vb - Ib * c.zb_linha)) / c.za_carga ∧
      r.I_bc = ((c.vb - Ib * c.zb_linha) - (c.vc - Ic * c.zc_linha)) / c.zb_carga ∧
      r.I_ca = ((c.vc - Ic * c.zc_linha) - (c.va - Ia * c.za_linha)) / c.zc_carga := by
  have hcf : ¬(c.za_carga = 0 ∨ c.zb_carga = 0 ∨ c.zc_carga = 0) := by
    push_neg
    exact ⟨hza, hzb, hzc⟩
  have hs : c.za_carga + c.zb_carga + c.zc_carga ≠ 0 := by
    intro h0
    have hcopy := hconv
    rw [converteCargaDY.eq_def, if_pos h0] at hcopy
    exact Option.noConfusion hcopy
  have hc2 : c2 = { c with
      za_carga := c.za_carga * c.zc_carga / (c.za_carga + c.zb_carga + c.zc_carga)
      zb_carga := c.zb_carga * c.za_carga / (c.za_carga + c.zb_carga + c.zc_carga)
      zc_carga := c.zc_carga * c.zb_carga / (c.za_carga + c.zb_carga + c.zc_carga) } := by
    have hcopy := hconv
    rw [converteCargaDY.eq_def, if_neg hs] at hcopy
    exact (Option.some.inj hcopy).symm
  subst hc2
  simp only [calcula_D_deseq, hconv, hA, hB, hC]
  rw [if_neg hcf]
  exact ⟨_, rfl, rfl, rfl, rfl, rfl, rfl, rfl⟩

/-- Witness for claim C1 at `cw0` and its Δ→Y-converted circuit. -/
theorem claim_C1_deseq_uses_original_delta_witness :
    ∃ r, calcula_D_deseq cw0 = some r ∧
      r.I_a = 0 ∧ r.I_b = 0 ∧ r.I_c = 0 ∧
      r.I_ab = ((cw0.va - 0 * cw0.za_linha) - (cw0.vb - 0 * cw0.zb_linha)) / cw0.za_carga ∧
      r.I_bc = ((cw0.vb - 0 * cw0.zb_linha) - (cw0.vc - 0 * cw0.zc_linha)) / cw0.zb_carga ∧
      r.I_ca = ((cw0.vc - 0 * cw0.zc_linha) - (cw0.va - 0 * cw0.za_linha)) / cw0.zc_carga :=
  claim_C1_deseq_uses_original_delta cw0 ⟨4, 0, 0, 0, 0, 0, 0, 1 / 3, 1 / 3, 1 / 3, 0⟩ 0 0 0
    (by norm_num [converteCargaDY, cw0])
    (by norm_num [correnteFaseA, calcula_I_n, calcula_V_nl_n])
    (by norm_num [correnteFaseB, calcula_I_n, calcula_V_nl_n])
    (by norm_num [correnteFaseC, calcula_I_n, calcula_V_nl_n])
    (by norm_num [cw0]) (by norm_num [cw0]) (by norm_num [cw0])
